import Mathlib

/-!
Shallow embedding of `src/features/modals/NodeModal/index.tsx`.

The component edits a single node of a JSON graph.  Its pure helpers
(`normalizeNodeData`, `jsonPathToString`, `setValueAtPath`, `coerceValue`)
are translated directly; the stateful `handleSave` handler is modelled as a
transition on a `ModalState` record holding the two global stores (the JSON
document store and the file-contents store), the selected node and the
modal's local state, together with an event log recording store updates and
console output.

JavaScript numbers are IEEE-754 doubles; they are kept abstract as a type
parameter `JNum`, together with a rendering function (`String(n)` /
`JSON.stringify` of a number) and a parsing function (`Number(s)`, with
`none` standing for `NaN`) supplied as parameters where needed.  The
external collaborators `JSON.parse` and the graph parser
(`features/editor/views/GraphView/lib/jsonParser`) are likewise passed in
as function parameters.
-/

namespace NodeModal

/-- A JSON-path segment: an array index (a number in the TSX source; the
indices produced for array positions are natural numbers) or an object
key. -/
inductive Seg where
  | idx (n : Nat)
  | key (s : String)
deriving DecidableEq, Repr

/-- JS runtime values handled by the module: the JSON values plus
`undefined`.  Objects keep their fields as an ordered association list,
matching JS property insertion order. -/
inductive JValue (JNum : Type) where
  | null
  | undef
  | bool (b : Bool)
  | num (n : JNum)
  | str (s : String)
  | arr (elems : List (JValue JNum))
  | obj (fields : List (String × JValue JNum))

/-- One row of `NodeData["text"]`: an optional key, a value and a type tag
(the strings "string", "number", "boolean", "array", "object", ...). -/
structure Row (JNum : Type) where
  key : Option String
  value : JValue JNum
  type : String

/-- The `NodeData` of a graph node: its flattened rows and its path from
the document root. -/
structure NodeData (JNum : Type) where
  path : List Seg
  text : List (Row JNum)

/-- The part of the parser's output `handleSave` consumes: the node list. -/
structure Graph (JNum : Type) where
  nodes : List (NodeData JNum)

/-- Observable effects emitted during `handleSave`, in program order. -/
inductive Event where
  | setJson (s : String)
  | setContents (contents : String) (hasChanges skipUpdate : Bool)
  | selectNode
  | consoleWarn
  | consoleError
deriving DecidableEq, Repr

/-- The state `handleSave` reads and writes: the JSON document store
(`useJson`), the file-contents store (`useFile`), the selected node
(`useGraph`), the modal's `editMode` and `formValues` local state, and the
log of emitted events. -/
structure ModalState (JNum : Type) where
  json : String
  fileContents : String
  fileHasChanges : Bool
  selectedNode : Option (NodeData JNum)
  editMode : Bool
  formValues : List (String × String)
  events : List Event

/-- JS truthiness of a row key (`row.key`): `undefined` and the empty
string are falsy. -/
def truthyKey : Option String → Bool
  | none => false
  | some s => !(s == "")

/-- JS `v == null`, true exactly for `null` and `undefined`. -/
def isNullish {JNum : Type} : JValue JNum → Bool
  | JValue.null => true
  | JValue.undef => true
  | _ => false

/-- JS `v && typeof v === "object"`: true exactly for (non-null) objects
and arrays. -/
def jsObjLike {JNum : Type} : JValue JNum → Bool
  | JValue.obj _ => true
  | JValue.arr _ => true
  | _ => false

/-- First field of an object with the given name, `undefined` if absent
(JS property read `o[k]`). -/
def lookupF {JNum : Type} : List (String × JValue JNum) → String → JValue JNum
  | [], _ => JValue.undef
  | (k0, v0) :: rest, k => if k0 = k then v0 else lookupF rest k

/-- A string that is a canonical array index ("0", "17", ...): JS treats
`a["17"]` on an array like `a[17]`. -/
def canonIdx (s : String) : Option Nat :=
  match s.toNat? with
  | some n => if Nat.repr n = s then some n else none
  | none => none

/-- JS property read `cur[seg]` for a non-nullish `cur`.  Objects are
looked up by key (a numeric segment is coerced to its decimal string);
arrays by index; strings index to one-character strings.  Built-in
properties of primitives (such as `.length`) are not modelled: the paths
produced by the graph parser never contain them. -/
def jsIndex {JNum : Type} : JValue JNum → Seg → JValue JNum
  | JValue.obj fs, Seg.key s => lookupF fs s
  | JValue.obj fs, Seg.idx n => lookupF fs (Nat.repr n)
  | JValue.arr xs, Seg.idx n => xs.getD n JValue.undef
  | JValue.arr xs, Seg.key s =>
      match canonIdx s with
      | some n => xs.getD n JValue.undef
      | none => JValue.undef
  | JValue.str s, Seg.idx n =>
      match s.toList.get? n with
      | some c => JValue.str (String.singleton c)
      | none => JValue.undef
  | JValue.str s, Seg.key k =>
      match canonIdx k with
      | some n =>
          match s.toList.get? n with
          | some c => JValue.str (String.singleton c)
          | none => JValue.undef
      | none => JValue.undef
  | _, _ => JValue.undef

/-- The loop of `setValueAtPath`: before each step the current value is
checked with `cur == null` and the walk bails out with `undefined`;
otherwise `cur = cur[seg]`. -/
def walkPath {JNum : Type} : JValue JNum → List Seg → JValue JNum
  | root, [] => root
  | cur, seg :: rest =>
      if isNullish cur then JValue.undef else walkPath (jsIndex cur seg) rest

/-- Source `setValueAtPath(root, path)`: a missing or empty path
returns the root, otherwise the path is walked segment by segment. -/
def setValueAtPath {JNum : Type} (root : JValue JNum) : Option (List Seg) → JValue JNum
  | none => root
  | some [] => root
  | some p => walkPath root p

/-- Source `coerceValue(value, type)`.  `parseNum` models
`Number(value)` with `none` for `NaN`.  In the source the `"boolean"`
branch falls through to the shared `value === "null"` check when the text
is neither "true" nor "false"; the nested conditionals below reproduce
that flow. -/
def coerceValue {JNum : Type} (parseNum : String → Option JNum)
    (value : String) (type : Option String) : JValue JNum :=
  if type = some "number" then
    match parseNum value with
    | some n => JValue.num n
    | none => JValue.str value
  else if type = some "boolean" then
    if value = "true" then JValue.bool true
    else if value = "false" then JValue.bool false
    else if value = "null" then JValue.null
    else JValue.str value
  else if value = "null" then JValue.null
  else JValue.str value

/-- JS property write `o[k] = v` on a plain object: an existing key keeps
its position and gets the new value, a new key is appended. -/
def insertJS {JNum : Type} : List (String × JValue JNum) → String → JValue JNum →
    List (String × JValue JNum)
  | [], k, v => [(k, v)]
  | (k0, v0) :: rest, k, v =>
      if k0 = k then (k0, v) :: rest else (k0, v0) :: insertJS rest k v

/-- Escape of one character inside a JSON string literal, as produced by
`JSON.stringify`. -/
def escChar (c : Char) : String :=
  if c = '"' then "\\\""
  else if c = '\\' then "\\\\"
  else if c = '\n' then "\\n"
  else if c = '\r' then "\\r"
  else if c = '\t' then "\\t"
  else if c.toNat = 8 then "\\b"
  else if c.toNat = 12 then "\\f"
  else if c.toNat < 32 then
    "\\u00" ++ String.singleton (Nat.digitChar (c.toNat / 16)) ++
      String.singleton (Nat.digitChar (c.toNat % 16))
  else String.singleton c

/-- Rendering of a string value by `JSON.stringify`. -/
def jsQuote (s : String) : String :=
  "\"" ++ String.join (s.toList.map escChar) ++ "\""

/-- Indentation produced by `JSON.stringify(v, null, 2)` at depth `d`. -/
def pad (d : Nat) : String :=
  String.mk (List.replicate (2 * d) ' ')

mutual

/-- Model of `JSON.stringify(v, null, 2)` at depth `d`; `none` is the `undefined`
result (only produced for a top-level `undefined`). -/
def jstr {JNum : Type} (renderNum : JNum → String) (d : Nat) : JValue JNum → Option String
  | JValue.null => some "null"
  | JValue.undef => none
  | JValue.bool b => some (cond b "true" "false")
  | JValue.num n => some (renderNum n)
  | JValue.str s => some (jsQuote s)
  | JValue.arr [] => some "[]"
  | JValue.arr (x :: xs) =>
      some ("[\n" ++ jstrItems renderNum (d + 1) (x :: xs) ++ "\n" ++ pad d ++ "]")
  | JValue.obj [] => some "\x7b\x7d"
  | JValue.obj (f :: fs) =>
      let body := jstrFields renderNum (d + 1) (f :: fs)
      some (if body = "" then "\x7b\x7d" else "\x7b\n" ++ body ++ "\n" ++ pad d ++ "\x7d")

/-- Array items of `JSON.stringify(v, null, 2)`, joined by ",\n"; an
`undefined` element prints as "null". -/
def jstrItems {JNum : Type} (renderNum : JNum → String) (d : Nat) : List (JValue JNum) → String
  | [] => ""
  | [x] => pad d ++ (jstr renderNum d x).getD "null"
  | x :: y :: xs =>
      pad d ++ (jstr renderNum d x).getD "null" ++ ",\n" ++ jstrItems renderNum d (y :: xs)

/-- Object fields of `JSON.stringify(v, null, 2)`, joined by ",\n"; a
field whose value stringifies to `undefined` is skipped. -/
def jstrFields {JNum : Type} (renderNum : JNum → String) (d : Nat) :
    List (String × JValue JNum) → String
  | [] => ""
  | (k, v) :: fs =>
      match jstr renderNum d v with
      | none => jstrFields renderNum d fs
      | some s =>
          let rest := jstrFields renderNum d fs
          pad d ++ jsQuote k ++ ": " ++ s ++ (if rest = "" then "" else ",\n" ++ rest)

end

mutual

/-- JS string conversion `String(v)` / template interpolation. -/
def jsToString {JNum : Type} (renderNum : JNum → String) : JValue JNum → String
  | JValue.null => "null"
  | JValue.undef => "undefined"
  | JValue.bool b => cond b "true" "false"
  | JValue.num n => renderNum n
  | JValue.str s => s
  | JValue.arr xs => jsToStringElems renderNum xs
  | JValue.obj _ => "[object Object]"

/-- Model of `Array.prototype.toString`: elements joined by ","; `null` and
`undefined` elements print as the empty string. -/
def jsToStringElems {JNum : Type} (renderNum : JNum → String) : List (JValue JNum) → String
  | [] => ""
  | [x] =>
      match x with
      | JValue.null => ""
      | JValue.undef => ""
      | v => jsToString renderNum v
  | x :: y :: xs =>
      (match x with
       | JValue.null => ""
       | JValue.undef => ""
       | v => jsToString renderNum v) ++ "," ++ jsToStringElems renderNum (y :: xs)

end

/-- The body of the `forEach` in `normalizeNodeData`: rows typed "array"
or "object" are dropped, and a row with a truthy key is written into the
accumulated object. -/
def saveRowStep {JNum : Type} (acc : List (String × JValue JNum)) (row : Row JNum) :
    List (String × JValue JNum) :=
  if !(row.type == "array") && !(row.type == "object") then
    if truthyKey row.key then insertJS acc (row.key.getD "") row.value else acc
  else acc

/-- The object accumulated by `normalizeNodeData`'s `forEach`. -/
def buildObj {JNum : Type} (rows : List (Row JNum)) : List (String × JValue JNum) :=
  rows.foldl saveRowStep []

/-- Model of `JSON.stringify(obj, null, 2)` on a plain object (always a string). -/
def objOut {JNum : Type} (renderNum : JNum → String) (fs : List (String × JValue JNum)) :
    String :=
  (jstr renderNum 0 (JValue.obj fs)).getD ""

/-- Source `normalizeNodeData(nodeRows)`: `undefined` or empty
rows print "\x7b\x7d"; a single keyless row prints as the raw template
interpolation of its value; otherwise the scalar keyed rows are collected
into an object and pretty-printed. -/
def normalizeNodeData {JNum : Type} (renderNum : JNum → String) :
    Option (List (Row JNum)) → String
  | none => "\x7b\x7d"
  | some [] => "\x7b\x7d"
  | some [r] =>
      if truthyKey r.key then objOut renderNum (buildObj [r])
      else jsToString renderNum r.value
  | some rows => objOut renderNum (buildObj rows)

/-- Source `jsonPathToString(path)`: numeric segments render
bare, string segments render wrapped in (unescaped) double quotes, and the
segments are joined with "][" inside "$[...]". -/
def jsonPathToString : Option (List Seg) → String
  | none => "$"
  | some [] => "$"
  | some p =>
      "$[" ++ String.intercalate "]["
        (p.map fun seg =>
          match seg with
          | Seg.idx n => Nat.repr n
          | Seg.key s => "\"" ++ s ++ "\"") ++ "]"

/-- Model of `JSON.stringify` (no indent) on a path array, used by `handleSave` to
compare node paths. -/
def pathJson (p : List Seg) : String :=
  "[" ++ String.intercalate ","
    (p.map fun seg =>
      match seg with
      | Seg.idx n => Nat.repr n
      | Seg.key s => jsQuote s) ++ "]"

/-- Update of the first field with the given name; an absent name leaves
the object unchanged (that case is unreachable below: it would have made
the walk to the parent produce `undefined`). -/
def modifyField {JNum : Type} : List (String × JValue JNum) → String →
    (JValue JNum → JValue JNum) → List (String × JValue JNum)
  | [], _, _ => []
  | (k0, v0) :: rest, k, f =>
      if k0 = k then (k0, f v0) :: rest else (k0, v0) :: modifyField rest k f

/-- Update of the `n`-th element of a list, leaving it unchanged when out
of range. -/
def modifyNth {JNum : Type} : List (JValue JNum) → Nat →
    (JValue JNum → JValue JNum) → List (JValue JNum)
  | [], _, _ => []
  | x :: xs, 0, f => f x :: xs
  | x :: xs, n + 1, f => x :: modifyNth xs n f

/-- Pure rendering of the aliased mutation `parent[key] = v`: `parent` is
the reference obtained by walking `path` from the freshly parsed document
(a tree, so the reference is a unique position), hence mutating through it
equals updating the document at that position.  The traversal mirrors
`jsIndex` case by case. -/
def modifyAtPath {JNum : Type} (f : JValue JNum → JValue JNum) :
    List Seg → JValue JNum → JValue JNum
  | [], v => f v
  | seg :: rest, JValue.obj fs =>
      JValue.obj (modifyField fs
        (match seg with
         | Seg.key s => s
         | Seg.idx n => Nat.repr n) (modifyAtPath f rest))
  | seg :: rest, JValue.arr xs =>
      (match seg with
       | Seg.idx n => JValue.arr (modifyNth xs n (modifyAtPath f rest))
       | Seg.key s =>
         match canonIdx s with
         | some n => JValue.arr (modifyNth xs n (modifyAtPath f rest))
         | none => JValue.arr xs)
  | _ :: _, v => v

/-- Write into a list at index `n`, extending with `null`s when `n` is
past the end: JS `a[n] = v` creates holes, which `JSON.stringify` prints
as "null". -/
def setPad {JNum : Type} : List (JValue JNum) → Nat → JValue JNum → List (JValue JNum)
  | [], 0, v => [v]
  | [], n + 1, v => JValue.null :: setPad [] n v
  | _ :: xs, 0, v => v :: xs
  | x :: xs, n + 1, v => x :: setPad xs n v

/-- JS property write `target[k] = v` on an object or array.  On an array
a canonical-index key writes the element; any other key becomes a
non-index property, invisible to `JSON.stringify`.  Scalars never reach
this function (callers guard with `jsObjLike`). -/
def assignProp {JNum : Type} : JValue JNum → String → JValue JNum → JValue JNum
  | JValue.obj fs, k, v => JValue.obj (insertJS fs k v)
  | JValue.arr xs, k, v =>
      (match canonIdx k with
       | some n => JValue.arr (setPad xs n v)
       | none => JValue.arr xs)
  | t, _, _ => t

/-- JS property write `parsed[key] = v` on the parsed document root.  The
TSX module is compiled as an ES module, hence strict mode: creating a
property on `null`, `undefined` or a primitive throws a `TypeError`,
modelled by `none`. -/
def rootAssign {JNum : Type} : JValue JNum → String → JValue JNum → Option (JValue JNum)
  | JValue.obj fs, k, v => some (JValue.obj (insertJS fs k v))
  | JValue.arr xs, k, v => some (assignProp (JValue.arr xs) k v)
  | _, _, _ => none

/-- Model of `raw ? JSON.parse(raw) : \x7b\x7d`: the empty document text is falsy and
yields an empty object without running the parser; `jsonParse` models
`JSON.parse`, with `none` for a thrown `SyntaxError`. -/
def parsedDoc {JNum : Type} (jsonParse : String → Option (JValue JNum))
    (st : ModalState JNum) : Option (JValue JNum) :=
  if st.json = "" then some (JValue.obj []) else jsonParse st.json

/-- Model of `nodeData?.path`: `undefined` when no node is selected. -/
def selPath {JNum : Type} (st : ModalState JNum) : Option (List Seg) :=
  st.selectedNode.map NodeData.path

/-- Model of `nodeData?.text.find(r => r.key === key)?.type` (the optional chain
short-circuits when no node is selected; `row?.type` is `undefined` when
no row matches). -/
def rowTypeFor {JNum : Type} (nd : Option (NodeData JNum)) (k : String) : Option String :=
  (nd.bind fun n => n.text.find? fun r => r.key == some k).map Row.type

/-- The coerced values written by the save loop, one per `formValues` key
in insertion order. -/
def editsOf {JNum : Type} (parseNum : String → Option JNum) (st : ModalState JNum) :
    List (String × JValue JNum) :=
  st.formValues.map fun kv => (kv.1, coerceValue parseNum kv.2 (rowTypeFor st.selectedNode kv.1))

/-- Sequential property writes of all edited keys onto one target. -/
def applyAll {JNum : Type} (edits : List (String × JValue JNum)) (v : JValue JNum) :
    JValue JNum :=
  edits.foldl (fun p kv => assignProp p kv.1 kv.2) v

/-- The parsed document after the save loop.  When the walked-to parent is
an object or array, every edit is written through the alias at the node's
path; otherwise each edit is written onto the root, which throws (`none`)
as soon as the root is not an object or array. -/
def mutatedDoc {JNum : Type} (parseNum : String → Option JNum) (st : ModalState JNum)
    (parsed : JValue JNum) : Option (JValue JNum) :=
  if jsObjLike (setValueAtPath parsed (selPath st)) then
    some (modifyAtPath (applyAll (editsOf parseNum st)) ((selPath st).getD []) parsed)
  else
    (editsOf parseNum st).foldlM (fun acc kv => rootAssign acc kv.1 kv.2) parsed

/-- Model of `JSON.stringify(parsed, null, 2)` as stored by `setJson` and
`setContents` ("undefined" is unreachable: the mutated document is never
the value `undefined`). -/
def savedStr {JNum : Type} (renderNum : JNum → String) (v : JValue JNum) : String :=
  (jstr renderNum 0 v).getD "undefined"

/-- The inner `try` of `handleSave`: re-run the graph parser on the new
text and, when some node's stringified path equals the stringified path of
the edited node, select it; parser errors and a missing match leave the
selection unchanged. -/
def reparse {JNum : Type} (gparser : String → Option (Graph JNum)) (jsonStr : String)
    (st : ModalState JNum) : Option (NodeData JNum) × List Event :=
  match gparser jsonStr with
  | none => (st.selectedNode, [])
  | some g =>
    match selPath st with
    | none => (st.selectedNode, [])
    | some p =>
      match g.nodes.find? (fun n => pathJson n.path == pathJson p) with
      | some m => (some m, [Event.selectNode])
      | none => (st.selectedNode, [])

/-- Source `handleSave`, as a transition on `ModalState`.  The
outer `catch` (reached when `JSON.parse` throws, or when a strict-mode
`TypeError` aborts the write loop before any store was touched) only logs;
a successful parse and write loop updates both stores, re-parses the
graph, and exits edit mode. -/
def handleSave {JNum : Type} (jsonParse : String → Option (JValue JNum))
    (gparser : String → Option (Graph JNum)) (renderNum : JNum → String)
    (parseNum : String → Option JNum) (st : ModalState JNum) : ModalState JNum :=
  match parsedDoc jsonParse st with
  | none => { st with events := st.events ++ [Event.consoleError] }
  | some parsed =>
    let warnEvs :=
      if jsObjLike (setValueAtPath parsed (selPath st)) then [] else [Event.consoleWarn]
    match mutatedDoc parseNum st parsed with
    | none => { st with events := st.events ++ warnEvs ++ [Event.consoleError] }
    | some parsed2 =>
      let jsonStr := savedStr renderNum parsed2
      let se := reparse gparser jsonStr st
      { st with
        json := jsonStr
        fileContents := jsonStr
        fileHasChanges := false
        selectedNode := se.1
        editMode := false
        events := st.events ++ warnEvs ++
          [Event.setJson jsonStr, Event.setContents jsonStr false true] ++ se.2 }

/-- Spec-side predicate: a row the spec keeps in the flat object — a
truthy key and a type that is neither "array" nor "object". -/
def scalarRow {JNum : Type} (r : Row JNum) : Bool :=
  truthyKey r.key && !(r.type == "array") && !(r.type == "object")

/-- Spec-side entry list: the kept rows, mapped key to value, in row
order. -/
def specEntries {JNum : Type} (rows : List (Row JNum)) : List (String × JValue JNum) :=
  (rows.filter scalarRow).map fun r => (r.key.getD "", r.value)

/-- Spec-side object built from an entry list by JS property insertion. -/
def objFromEntries {JNum : Type} (es : List (String × JValue JNum)) :
    List (String × JValue JNum) :=
  es.foldl (fun acc kv => insertJS acc kv.1 kv.2) []

/-- Concrete number renderer for witnesses (integers suffice). -/
def intRender : Int → String := fun n => toString n

/-- Concrete `Number(s)` model for witnesses. -/
def intParse : String → Option Int := fun s => if s = "7" then some 7 else none

/-- Witness row of the selected node: field "b" holding "x". -/
def row0 : Row Int := ⟨some "b", JValue.str "x", "string"⟩

/-- Witness selected node at path $["a"]. -/
def node0 : NodeData Int := ⟨[Seg.key "a"], [row0]⟩

/-- Witness document: an object with "a" holding an object with "b". -/
def doc0 : JValue Int := JValue.obj [("a", JValue.obj [("b", JValue.str "x")])]

/-- Witness raw document text. -/
def raw0 : String := "\x7b\"a\":\x7b\"b\":\"x\"\x7d\x7d"

/-- Witness `JSON.parse`: parses exactly `raw0` to `doc0`. -/
def jp0 : String → Option (JValue Int) := fun s => if s = raw0 then some doc0 else none

/-- Witness `JSON.parse` that always throws. -/
def jpFail : String → Option (JValue Int) := fun _ => none

/-- Witness node carrying the edited value, as re-derived by the parser. -/
def node0e : NodeData Int := ⟨[Seg.key "a"], [⟨some "b", JValue.str "y", "string"⟩]⟩

/-- Witness graph parser returning a graph holding `node0e`. -/
def gp0 : String → Option (Graph Int) := fun _ => some ⟨[node0e]⟩

/-- Witness graph parser that always throws. -/
def gpFail : String → Option (Graph Int) := fun _ => none

/-- Witness state: editing node0's field "b" to "y". -/
def st0 : ModalState Int := ⟨raw0, raw0, true, some node0, true, [("b", "y")], []⟩

/-- Witness document after the save writes "y" into $["a"]["b"]. -/
def doc0e : JValue Int := JValue.obj [("a", JValue.obj [("b", JValue.str "y")])]

/-- Witness node whose path walks to a scalar ($["a"]["b"] is "x"). -/
def node8 : NodeData Int := ⟨[Seg.key "a", Seg.key "b"], [⟨some "c", JValue.str "z", "string"⟩]⟩

/-- Witness state for the root-fallback branch. -/
def st8 : ModalState Int := ⟨raw0, raw0, true, some node8, true, [("c", "w")], []⟩

/-- Counterexample `JSON.parse`: parses "null" to the null document. -/
def jpNull : String → Option (JValue Int) := fun s => if s = "null" then some JValue.null else none

/-- Counterexample selected node: path [] with one keyed row. -/
def nodeN : NodeData Int := ⟨[], [⟨some "a", JValue.str "x", "string"⟩]⟩

/-- Counterexample state: the document text is "null" and one field is
edited. -/
def stN : ModalState Int := ⟨"null", "null", true, some nodeN, true, [("a", "y")], []⟩

theorem setValueAtPath_eq_walkPath {JNum : Type} (root : JValue JNum) (p : List Seg) :
    setValueAtPath root (some p) = walkPath root p := by
  cases p <;> rfl

/-- C3: `coerceValue` coerces string input back to typed values: for a
"number" row the result is `Number(v)` unless that is `NaN`, in which case
the string is kept; for a "boolean" row the exact texts "true" and "false"
become booleans; otherwise the exact text "null" becomes `null`; in all
remaining cases the string is kept unchanged. -/
theorem coerceValue_typed_coercion {JNum : Type} (parseNum : String → Option JNum)
    (v : String) :
    (∀ n, parseNum v = some n → coerceValue parseNum v (some "number") = JValue.num n) ∧
    (parseNum v = none → coerceValue parseNum v (some "number") = JValue.str v) ∧
    (coerceValue parseNum v (some "boolean") =
      if v = "true" then JValue.bool true
      else if v = "false" then JValue.bool false
      else if v = "null" then JValue.null
      else JValue.str v) ∧
    (∀ t : Option String, t ≠ some "number" → t ≠ some "boolean" →
      coerceValue parseNum v t = if v = "null" then JValue.null else JValue.str v) := by
  refine ⟨fun n hn => ?_, fun hn => ?_, ?_, fun t ht1 ht2 => ?_⟩
  · simp [coerceValue, hn]
  · simp [coerceValue, hn]
  · simp [coerceValue]
  · simp [coerceValue, ht1, ht2]

theorem coerceValue_typed_coercion_witness :
    coerceValue intParse "7" (some "number") = JValue.num (7 : Int) ∧
    coerceValue intParse "null" (some "string") = JValue.null :=
  ⟨(coerceValue_typed_coercion intParse "7").1 7 rfl,
   (coerceValue_typed_coercion intParse "null").2.2.2 (some "string")
     (by decide) (by decide)⟩

/-- C5: `jsonPathToString` renders a missing or empty path as "$" and a
non-empty path as "$[" ++ segments joined by "][" ++ "]", a numeric
segment bare and a string segment wrapped in double quotes. -/
theorem jsonPathToString_query_format :
    jsonPathToString none = "$" ∧
    jsonPathToString (some []) = "$" ∧
    ∀ (x : Seg) (xs : List Seg),
      jsonPathToString (some (x :: xs)) =
        "$[" ++ String.intercalate "]["
          ((x :: xs).map fun seg =>
            match seg with
            | Seg.idx n => Nat.repr n
            | Seg.key s => "\"" ++ s ++ "\"") ++ "]" :=
  ⟨rfl, rfl, fun _ _ => rfl⟩

/-- C6: `setValueAtPath` returns the root for a missing or empty path,
indexes the root by each segment in order, and yields `undefined` (never
throwing) as soon as any intermediate value is null or undefined. -/
theorem setValueAtPath_walks_to_target {JNum : Type} (root : JValue JNum) :
    (setValueAtPath root none = root) ∧
    (setValueAtPath root (some []) = root) ∧
    (∀ (seg : Seg) (rest : List Seg), isNullish root = false →
      setValueAtPath root (some (seg :: rest)) =
        setValueAtPath (jsIndex root seg) (some rest)) ∧
    (∀ (seg : Seg) (rest : List Seg), isNullish root = true →
      setValueAtPath root (some (seg :: rest)) = JValue.undef) ∧
    (∀ (p1 p2 : List Seg) (seg : Seg),
      isNullish (setValueAtPath root (some p1)) = true →
      setValueAtPath root (some (p1 ++ seg :: p2)) = JValue.undef) := by
  refine ⟨rfl, rfl, fun seg rest h => ?_, fun seg rest h => ?_, fun p1 p2 seg h => ?_⟩
  · rw [setValueAtPath_eq_walkPath, setValueAtPath_eq_walkPath]
    simp [walkPath, h]
  · rw [setValueAtPath_eq_walkPath]
    simp [walkPath, h]
  · rw [setValueAtPath_eq_walkPath] at h ⊢
    induction p1 generalizing root with
    | nil =>
      simp only [walkPath] at h
      simp [walkPath, h]
    | cons s p1' ih =>
      simp only [List.cons_append, walkPath] at h ⊢
      by_cases hr : isNullish root = true
      · simp [hr]
      · simp only [Bool.not_eq_true] at hr
        simp only [hr, if_neg] at h ⊢
        simp only [Bool.false_eq_true, if_false] at h ⊢
        exact ih _ h

theorem setValueAtPath_walks_to_target_witness :
    setValueAtPath (JValue.obj [("a", JValue.null)] : JValue Int)
      (some [Seg.key "a", Seg.key "b"]) = JValue.undef :=
  (setValueAtPath_walks_to_target (JValue.obj [("a", JValue.null)] : JValue Int)).2.2.2.2
    [Seg.key "a"] [] (Seg.key "b") rfl

/-- C10: a node whose rows are a single keyless row prints as the raw
template interpolation of the row value — a string without surrounding
quotes, `null` as "null" and `undefined` as "undefined". -/
theorem normalizeNodeData_keyless_scalar {JNum : Type} (renderNum : JNum → String)
    (r : Row JNum) (h : truthyKey r.key = false) :
    normalizeNodeData renderNum (some [r]) = jsToString renderNum r.value ∧
    (∀ s, jsToString renderNum (JValue.str s) = s) ∧
    jsToString renderNum (JValue.null : JValue JNum) = "null" ∧
    jsToString renderNum (JValue.undef : JValue JNum) = "undefined" := by
  refine ⟨?_, fun s => rfl, rfl, rfl⟩
  simp [normalizeNodeData, h]

theorem normalizeNodeData_keyless_scalar_witness :
    normalizeNodeData intRender (some [(⟨none, JValue.str "hi", "string"⟩ : Row Int)]) = "hi" := by
  have h := normalizeNodeData_keyless_scalar intRender
    (⟨none, JValue.str "hi", "string"⟩ : Row Int) rfl
  exact h.1.trans (h.2.1 "hi")

theorem saveRowStep_eq {JNum : Type} (acc : List (String × JValue JNum)) (r : Row JNum) :
    saveRowStep acc r =
      if scalarRow r then insertJS acc (r.key.getD "") r.value else acc := by
  cases h1 : truthyKey r.key <;> cases h2 : r.type == "array" <;>
    cases h3 : r.type == "object" <;>
    simp [saveRowStep, scalarRow, h1, h2, h3]

theorem foldl_saveRowStep_eq {JNum : Type} (rows : List (Row JNum)) :
    ∀ acc, rows.foldl saveRowStep acc =
      (specEntries rows).foldl (fun a kv => insertJS a kv.1 kv.2) acc := by
  induction rows with
  | nil => intro acc; rfl
  | cons r rs ih =>
    intro acc
    cases h : scalarRow r
    · have hs : specEntries (r :: rs) = specEntries rs := by
        simp [specEntries, List.filter_cons, h]
      rw [List.foldl_cons, saveRowStep_eq, h, hs]
      · exact ih acc
    · have hs : specEntries (r :: rs) = (r.key.getD "", r.value) :: specEntries rs := by
        simp [specEntries, List.filter_cons, h]
      rw [List.foldl_cons, saveRowStep_eq, h, hs, List.foldl_cons]
      exact ih _

theorem buildObj_eq_objFromEntries {JNum : Type} (rows : List (Row JNum)) :
    buildObj rows = objFromEntries (specEntries rows) :=
  foldl_saveRowStep_eq rows []

theorem insertJS_of_not_mem {JNum : Type} (acc : List (String × JValue JNum)) (k : String)
    (v : JValue JNum) (h : k ∉ acc.map Prod.fst) :
    insertJS acc k v = acc ++ [(k, v)] := by
  induction acc with
  | nil => rfl
  | cons e es ih =>
    simp only [List.map_cons, List.mem_cons] at h
    push_neg at h
    obtain ⟨h1, h2⟩ := h
    obtain ⟨k0, v0⟩ := e
    simp only [insertJS, if_neg (Ne.symm h1), List.cons_append]
    rw [ih h2]

theorem foldl_insertJS_nodup {JNum : Type} (es : List (String × JValue JNum)) :
    ∀ acc : List (String × JValue JNum),
      ((acc ++ es).map Prod.fst).Nodup →
      es.foldl (fun a kv => insertJS a kv.1 kv.2) acc = acc ++ es := by
  induction es with
  | nil => intro acc _; simp
  | cons e es ih =>
    intro acc h
    have hnot : e.1 ∉ acc.map Prod.fst := by
      intro hmem
      rw [List.map_append, List.nodup_append] at h
      exact h.2.2 hmem (by simp)
    rw [List.foldl_cons, insertJS_of_not_mem _ _ _ hnot]
    have h' : (((acc ++ [e]) ++ es).map Prod.fst).Nodup := by
      simpa using h
    rw [ih (acc ++ [e]) h']
    simp

theorem objFromEntries_of_nodup {JNum : Type} (es : List (String × JValue JNum))
    (h : (es.map Prod.fst).Nodup) : objFromEntries es = es := by
  have := foldl_insertJS_nodup es [] (by simpa using h)
  simpa [objFromEntries] using this

/-- C4: for a row list containing at least one keyed row,
`normalizeNodeData` prints the 2-space pretty JSON of the object whose
entries are the rows with a truthy key and a type that is neither "array"
nor "object", mapped key to value in row order (distinct keys render
exactly that entry list); a missing or empty row list prints "\x7b\x7d". -/
theorem normalizeNodeData_flat_object {JNum : Type} (renderNum : JNum → String)
    (rows : List (Row JNum)) (hk : ∃ r ∈ rows, truthyKey r.key = true) :
    normalizeNodeData renderNum (none : Option (List (Row JNum))) = "\x7b\x7d" ∧
    normalizeNodeData renderNum (some ([] : List (Row JNum))) = "\x7b\x7d" ∧
    normalizeNodeData renderNum (some rows) =
      objOut renderNum (objFromEntries (specEntries rows)) ∧
    (((specEntries rows).map Prod.fst).Nodup →
      objFromEntries (specEntries rows) = specEntries rows) := by
  refine ⟨rfl, rfl, ?_, objFromEntries_of_nodup _⟩
  match rows, hk with
  | [r], ⟨r', hr', htr⟩ =>
    have : r' = r := by simpa using hr'
    subst this
    simp [normalizeNodeData, htr, buildObj_eq_objFromEntries]
  | a :: b :: rs, _ =>
    show objOut renderNum (buildObj (a :: b :: rs)) = _
    rw [buildObj_eq_objFromEntries]

theorem normalizeNodeData_flat_object_witness :
    normalizeNodeData intRender
        (some [(⟨some "a", JValue.num (1 : Int), "number"⟩ : Row Int),
               (⟨some "o", JValue.str "?", "object"⟩ : Row Int)]) =
      objOut intRender [("a", JValue.num (1 : Int))] := by
  have h := normalizeNodeData_flat_object intRender
    [(⟨some "a", JValue.num (1 : Int), "number"⟩ : Row Int),
     (⟨some "o", JValue.str "?", "object"⟩ : Row Int)]
    ⟨⟨some "a", JValue.num (1 : Int), "number"⟩, by simp, rfl⟩
  exact h.2.2.1.trans (congrArg (objOut intRender) (h.2.2.2 (by decide)))

/-- C2: when the document text fails to parse, the save changes neither
store, nor the selected node, nor the edit mode — it only logs the error. -/
theorem handleSave_parse_failure_atomic {JNum : Type}
    (jsonParse : String → Option (JValue JNum)) (gparser : String → Option (Graph JNum))
    (renderNum : JNum → String) (parseNum : String → Option JNum) (st : ModalState JNum)
    (hne : st.json ≠ "") (hp : jsonParse st.json = none) :
    (handleSave jsonParse gparser renderNum parseNum st).json = st.json ∧
    (handleSave jsonParse gparser renderNum parseNum st).fileContents = st.fileContents ∧
    (handleSave jsonParse gparser renderNum parseNum st).fileHasChanges = st.fileHasChanges ∧
    (handleSave jsonParse gparser renderNum parseNum st).selectedNode = st.selectedNode ∧
    (handleSave jsonParse gparser renderNum parseNum st).editMode = st.editMode ∧
    (handleSave jsonParse gparser renderNum parseNum st).formValues = st.formValues ∧
    (handleSave jsonParse gparser renderNum parseNum st).events =
      st.events ++ [Event.consoleError] := by
  have hpd : parsedDoc jsonParse st = none := by simp [parsedDoc, if_neg hne, hp]
  refine ⟨?_, ?_, ?_, ?_, ?_, ?_, ?_⟩ <;> simp [handleSave, hpd]

theorem handleSave_parse_failure_atomic_witness :
    (handleSave jpFail gp0 intRender intParse st0).json = st0.json ∧
    (handleSave jpFail gp0 intRender intParse st0).editMode = st0.editMode ∧
    (handleSave jpFail gp0 intRender intParse st0).events =
      st0.events ++ [Event.consoleError] := by
  have h := handleSave_parse_failure_atomic jpFail gp0 intRender intParse st0
    (by decide) rfl
  exact ⟨h.1, h.2.2.2.2.1, h.2.2.2.2.2.2⟩

/-- C9: after a successful save both stores hold the identical string, the
2-space `JSON.stringify` of the edited document, and the file-contents
store was updated with `hasChanges` false and `skipUpdate` true. -/
theorem handleSave_success_stores {JNum : Type}
    (jsonParse : String → Option (JValue JNum)) (gparser : String → Option (Graph JNum))
    (renderNum : JNum → String) (parseNum : String → Option JNum) (st : ModalState JNum)
    (parsed parsed2 : JValue JNum)
    (hne : st.json ≠ "") (hp : jsonParse st.json = some parsed)
    (hm : mutatedDoc parseNum st parsed = some parsed2) :
    (handleSave jsonParse gparser renderNum parseNum st).json =
      savedStr renderNum parsed2 ∧
    (handleSave jsonParse gparser renderNum parseNum st).fileContents =
      savedStr renderNum parsed2 ∧
    (handleSave jsonParse gparser renderNum parseNum st).fileHasChanges = false ∧
    Event.setContents (savedStr renderNum parsed2) false true ∈
      (handleSave jsonParse gparser renderNum parseNum st).events := by
  have hpd : parsedDoc jsonParse st = some parsed := by simp [parsedDoc, if_neg hne, hp]
  refine ⟨?_, ?_, ?_, ?_⟩ <;> simp [handleSave, hpd, hm]

theorem handleSave_success_stores_witness :
    (handleSave jp0 gp0 intRender intParse st0).json = savedStr intRender doc0e ∧
    (handleSave jp0 gp0 intRender intParse st0).fileContents = savedStr intRender doc0e := by
  have h := handleSave_success_stores jp0 gp0 intRender intParse st0 doc0 doc0e
    (by decide) rfl rfl
  exact ⟨h.1, h.2.1⟩

/-- C1: when the document text parses, the save writes the edited values
back (the stores hold the stringified mutated document), re-derives the
graph by running the parser on the new text, and replaces the selected
node by the re-parsed node whose path equals the edited node's path, so
the edited node stays selected. -/
theorem handleSave_success_reselects {JNum : Type}
    (jsonParse : String → Option (JValue JNum)) (gparser : String → Option (Graph JNum))
    (renderNum : JNum → String) (parseNum : String → Option JNum) (st : ModalState JNum)
    (parsed parsed2 : JValue JNum) (nd m : NodeData JNum) (g : Graph JNum)
    (hne : st.json ≠ "") (hp : jsonParse st.json = some parsed)
    (hsel : st.selectedNode = some nd)
    (hm : mutatedDoc parseNum st parsed = some parsed2)
    (hg : gparser (savedStr renderNum parsed2) = some g)
    (hfind : g.nodes.find? (fun n => pathJson n.path == pathJson nd.path) = some m) :
    (handleSave jsonParse gparser renderNum parseNum st).json =
      savedStr renderNum parsed2 ∧
    (handleSave jsonParse gparser renderNum parseNum st).fileContents =
      savedStr renderNum parsed2 ∧
    (handleSave jsonParse gparser renderNum parseNum st).selectedNode = some m ∧
    m ∈ g.nodes ∧ pathJson m.path = pathJson nd.path ∧
    (handleSave jsonParse gparser renderNum parseNum st).editMode = false := by
  have hpd : parsedDoc jsonParse st = some parsed := by simp [parsedDoc, if_neg hne, hp]
  have hrp : reparse gparser (savedStr renderNum parsed2) st =
      (some m, [Event.selectNode]) := by
    simp [reparse, hg, selPath, hsel, hfind]
  have hmem : m ∈ g.nodes := List.mem_of_find?_eq_some hfind
  have hb := List.find?_some hfind
  have hpe : pathJson m.path = pathJson nd.path := by simpa using hb
  refine ⟨?_, ?_, ?_, hmem, hpe, ?_⟩ <;> simp [handleSave, hpd, hm, hrp]

theorem handleSave_success_reselects_witness :
    (handleSave jp0 gp0 intRender intParse st0).selectedNode = some node0e ∧
    (handleSave jp0 gp0 intRender intParse st0).editMode = false := by
  have h := handleSave_success_reselects jp0 gp0 intRender intParse st0 doc0 doc0e
    node0 node0e ⟨[node0e]⟩ (by decide) rfl rfl rfl rfl rfl
  exact ⟨h.2.2.1, h.2.2.2.2.2⟩

/-- C7: when the save has written the new text but re-deriving the graph
throws or produces no node with the edited node's path, the error is
swallowed and nothing is rolled back: both stores keep the new text, the
selection keeps the old node, and no error is logged. -/
theorem handleSave_reparse_failure_keeps_new_text {JNum : Type}
    (jsonParse : String → Option (JValue JNum)) (gparser : String → Option (Graph JNum))
    (renderNum : JNum → String) (parseNum : String → Option JNum) (st : ModalState JNum)
    (parsed parsed2 : JValue JNum)
    (hne : st.json ≠ "") (hp : jsonParse st.json = some parsed)
    (hm : mutatedDoc parseNum st parsed = some parsed2)
    (hbad : ∀ g, gparser (savedStr renderNum parsed2) = some g →
      ∀ p, selPath st = some p →
        g.nodes.find? (fun n => pathJson n.path == pathJson p) = none) :
    (handleSave jsonParse gparser renderNum parseNum st).json =
      savedStr renderNum parsed2 ∧
    (handleSave jsonParse gparser renderNum parseNum st).fileContents =
      savedStr renderNum parsed2 ∧
    (handleSave jsonParse gparser renderNum parseNum st).selectedNode = st.selectedNode ∧
    (handleSave jsonParse gparser renderNum parseNum st).editMode = false ∧
    (handleSave jsonParse gparser renderNum parseNum st).events =
      st.events ++
        (if jsObjLike (setValueAtPath parsed (selPath st)) then [] else [Event.consoleWarn]) ++
        [Event.setJson (savedStr renderNum parsed2),
         Event.setContents (savedStr renderNum parsed2) false true] := by
  have hpd : parsedDoc jsonParse st = some parsed := by simp [parsedDoc, if_neg hne, hp]
  have hrp : reparse gparser (savedStr renderNum parsed2) st = (st.selectedNode, []) := by
    unfold reparse
    cases hg : gparser (savedStr renderNum parsed2) with
    | none => rfl
    | some g =>
      cases hsp : selPath st with
      | none => rfl
      | some p => simp [hbad g hg p hsp]
  refine ⟨?_, ?_, ?_, ?_, ?_⟩ <;> simp [handleSave, hpd, hm, hrp]

theorem handleSave_reparse_failure_keeps_new_text_witness :
    (handleSave jp0 gpFail intRender intParse st0).json = savedStr intRender doc0e ∧
    (handleSave jp0 gpFail intRender intParse st0).selectedNode = some node0 := by
  have h := handleSave_reparse_failure_keeps_new_text jp0 gpFail intRender intParse st0
    doc0 doc0e (by decide) rfl rfl (by intro g hg; simp [gpFail] at hg)
  exact ⟨h.1, h.2.2.1.trans rfl⟩

theorem rootAssign_of_objLike {JNum : Type} (t : JValue JNum) (k : String) (v : JValue JNum)
    (h : jsObjLike t = true) : rootAssign t k v = some (assignProp t k v) := by
  cases t <;> simp_all [jsObjLike, rootAssign, assignProp]

theorem assignProp_objLike {JNum : Type} (t : JValue JNum) (k : String) (v : JValue JNum)
    (h : jsObjLike t = true) : jsObjLike (assignProp t k v) = true := by
  cases t with
  | obj fs => simp [assignProp, jsObjLike]
  | arr xs =>
    simp only [assignProp]
    cases canonIdx k <;> simp [jsObjLike]
  | _ => simp [jsObjLike] at h

theorem foldlM_rootAssign_of_objLike {JNum : Type} (edits : List (String × JValue JNum)) :
    ∀ t : JValue JNum, jsObjLike t = true →
      edits.foldlM (fun acc kv => rootAssign acc kv.1 kv.2) t = some (applyAll edits t) := by
  induction edits with
  | nil => intro t _; rfl
  | cons e es ih =>
    intro t h
    show (rootAssign t e.1 e.2 >>= fun t' =>
      es.foldlM (fun acc kv => rootAssign acc kv.1 kv.2) t') = _
    rw [rootAssign_of_objLike _ _ _ h]
    show es.foldlM (fun acc kv => rootAssign acc kv.1 kv.2) (assignProp t e.1 e.2) = _
    rw [ih _ (assignProp_objLike _ _ _ h)]
    rfl

/-- C8 (counterexample): with document text "null" and one edited key, the
walk to the selected node's path yields `null`, the warning is logged, but
the root assignment `parsed[key] = v` throws a `TypeError` on the null
root, so the save fails: stores and edit mode are untouched and the error
is logged — the save does not "proceed normally". -/
theorem handleSave_root_fallback_counterexample :
    (handleSave jpNull gp0 intRender intParse stN).editMode = true ∧
    (handleSave jpNull gp0 intRender intParse stN).json = "null" ∧
    (handleSave jpNull gp0 intRender intParse stN).fileContents = "null" ∧
    (handleSave jpNull gp0 intRender intParse stN).events =
      [Event.consoleWarn, Event.consoleError] :=
  ⟨rfl, rfl, rfl, rfl⟩

/-- C8 (amended): when the walk to the selected node's path yields null,
undefined or a non-object value but the parsed document root is itself an
object or array, the save does not fail: the warning is logged, every
edited key is assigned onto the parsed root, and saving proceeds normally
(stores updated, edit mode exited). -/
theorem handleSave_missing_parent_root_fallback {JNum : Type}
    (jsonParse : String → Option (JValue JNum)) (gparser : String → Option (Graph JNum))
    (renderNum : JNum → String) (parseNum : String → Option JNum) (st : ModalState JNum)
    (parsed : JValue JNum)
    (hne : st.json ≠ "") (hp : jsonParse st.json = some parsed)
    (hnp : jsObjLike (setValueAtPath parsed (selPath st)) = false)
    (hroot : jsObjLike parsed = true) :
    (handleSave jsonParse gparser renderNum parseNum st).json =
      savedStr renderNum (applyAll (editsOf parseNum st) parsed) ∧
    (handleSave jsonParse gparser renderNum parseNum st).fileContents =
      savedStr renderNum (applyAll (editsOf parseNum st) parsed) ∧
    (handleSave jsonParse gparser renderNum parseNum st).fileHasChanges = false ∧
    (handleSave jsonParse gparser renderNum parseNum st).editMode = false ∧
    Event.consoleWarn ∈ (handleSave jsonParse gparser renderNum parseNum st).events := by
  have hpd : parsedDoc jsonParse st = some parsed := by simp [parsedDoc, if_neg hne, hp]
  have hm : mutatedDoc parseNum st parsed =
      some (applyAll (editsOf parseNum st) parsed) := by
    unfold mutatedDoc
    rw [if_neg (by simp [hnp])]
    exact foldlM_rootAssign_of_objLike _ _ hroot
  refine ⟨?_, ?_, ?_, ?_, ?_⟩ <;> simp [handleSave, hpd, hm, hnp]

theorem handleSave_missing_parent_root_fallback_witness :
    (handleSave jp0 gp0 intRender intParse st8).editMode = false ∧
    Event.consoleWarn ∈ (handleSave jp0 gp0 intRender intParse st8).events := by
  have h := handleSave_missing_parent_root_fallback jp0 gp0 intRender intParse st8 doc0
    (by decide) rfl rfl rfl
  exact ⟨h.2.2.2.1, h.2.2.2.2⟩

end NodeModal
